import Mathlib

/-!
Shallow embedding of the Flow controller (`pkg/flow/flow.go`) of the
grafana agent repository, together with proofs about the properties of
`LoadFile`, the controller event loop `run`, `Close`, `ComponentInfos`
and `newFlow`.

The controller internals (`controller.Queue`, `controller.Scheduler`,
`controller.Loader`, the `river/diag` diagnostics package and the
`logging` package) are part of the repository but their sources are not
included here; where a claim depends on one of them it is modelled from
the specification, and the corresponding definition says so in its doc
comment.  Everything else is translated directly from `flow.go`.
-/

namespace Flow

/-! ## Diagnostics

Modelled from the spec: the `river/diag` package is not in the sources.
The spec distinguishes diagnostics that are errors from other
diagnostics ("A reload whose initial configuration *fails* ...", and
`LoadFile`'s own doc comment: "only start running components after Load
is called once without any configuration errors"), so a diagnostic
carries a severity. -/

/-- Severity of one diagnostic. -/
inductive Severity where
  | error
  | warn
deriving DecidableEq, Repr

/-- One position-bearing diagnostic produced by the configuration
parser or the loader. -/
structure Diagnostic where
  severity : Severity
  message : String
deriving DecidableEq, Repr

/-- A list of diagnostics, as returned by `Loader.Apply`. -/
abbrev Diagnostics := List Diagnostic

/-- Modelled from the spec: `diag.Diagnostics.HasErrors` of the
`river/diag` package (not in the sources) — whether any diagnostic in
the list has error severity. -/
def Diagnostics.hasErrors (ds : Diagnostics) : Bool :=
  ds.any (fun d => d.severity == Severity.error)

/-- Modelled from the spec: `diag.Diagnostics.ErrorOrNil` of the
`river/diag` package (not in the sources) — `nil` when the list is
empty, otherwise the list itself as an error value. -/
def Diagnostics.errorOrNil (ds : Diagnostics) : Option Diagnostics :=
  if ds.isEmpty then none else some ds

/-! ## The load-finished channel

`loadFinished` is a channel of capacity one
(`make(chan struct{}, 1)` in `newFlow`); we model its occupancy as a
natural number and the non-blocking send (`select` with a `default`
branch in `LoadFile`) as a total function that drops the value when the
channel is full. -/

/-- Non-blocking send on a channel of capacity `cap` holding `count`
messages: the message is delivered when there is room and dropped
otherwise.  The send never waits. -/
def chanSendNB (cap count : Nat) : Nat :=
  if count < cap then count + 1 else count

/-! ## Controller state touched by `LoadFile`

`L` is the (abstract) state of the `controller.Loader`, whose sources
are not included; `Loader.Apply` is passed in as a function
`L → L × Diagnostics`.  `logging.Logger.Update` is likewise external;
its outcome is passed in as an `Option String` (the error message, or
`none` on success). -/

/-- The fields of `Flow` that `LoadFile` reads or writes. -/
structure FlowState (L : Type) where
  loader : L
  loadedOnce : Bool
  loadFinishedCount : Nat
deriving DecidableEq, Repr

/-- The error value returned by `LoadFile`: either the wrapped logger
update error, or diagnostics. -/
inductive LoadError where
  | logUpdate (msg : String)
  | diags (ds : Diagnostics)
deriving DecidableEq, Repr

/-- What one call to `Flow.LoadFile` did: the updated controller state,
the returned error (`none` for `nil`), whether `loader.Apply` ran, and
whether a value was actually delivered on the `loadFinished` channel. -/
structure LoadFileResult (L : Type) where
  state : FlowState L
  ret : Option LoadError
  applyRan : Bool
  signalSent : Bool
deriving DecidableEq, Repr

/-- `Flow.LoadFile` (flow.go lines 196–219).  Under the exclusive
`loadMut` lock it updates the logger (returning a wrapped error on
failure, before `Apply` runs), runs `loader.Apply`, rejects a
first-ever load whose diagnostics contain errors without sending the
load-finished signal, and otherwise marks `loadedOnce`, sends a
non-blocking signal on the capacity-one `loadFinished` channel, and
returns `diags.ErrorOrNil()`. -/
def LoadFile {L : Type} (applyFn : L → L × Diagnostics)
    (logUpdateErr : Option String) (s : FlowState L) : LoadFileResult L :=
  match logUpdateErr with
  | some e =>
      { state := s
        ret := some (LoadError.logUpdate ("error updating logger: " ++ e))
        applyRan := false
        signalSent := false }
  | none =>
      let applied := applyFn s.loader
      let diags := applied.2
      if !s.loadedOnce && diags.hasErrors then
        { state := { s with loader := applied.1 }
          ret := some (LoadError.diags diags)
          applyRan := true
          signalSent := false }
      else
        { state :=
            { loader := applied.1
              loadedOnce := true
              loadFinishedCount := chanSendNB 1 s.loadFinishedCount }
          ret := (Diagnostics.errorOrNil diags).map LoadError.diags
          applyRan := true
          signalSent := s.loadFinishedCount == 0 }

/-! ## The update queue and the event loop's drain

Modelled from the spec: `controller.Queue` is not in the sources.  The
spec describes it as a coalescing set-queue of component nodes:
`Enqueue(n)` adds `n` if not already present (a no-op otherwise) and
`TryDequeue()` returns one node, or nil when empty, without blocking. -/

/-- A component node as an element of the update queue (identified by
its `NodeID`). -/
structure QNode where
  nodeID : String
deriving DecidableEq, Repr

/-- Modelled from the spec: the coalescing FIFO `controller.Queue`
(not in the sources), holding pending component nodes without
duplicates. -/
structure Queue where
  items : List QNode
deriving DecidableEq, Repr

/-- Modelled from the spec: `Queue.Enqueue` — add the node if not
already present, otherwise a no-op. -/
def Queue.enqueue (q : Queue) (n : QNode) : Queue :=
  if n ∈ q.items then q else ⟨q.items ++ [n]⟩

/-- Modelled from the spec: `Queue.TryDequeue` — return one node and
the rest of the queue, or `none` when the queue is empty.
Non-blocking. -/
def Queue.tryDequeue (q : Queue) : Option (QNode × Queue) :=
  match q.items with
  | [] => none
  | x :: xs => some (x, ⟨xs⟩)

/-- The body of the queue-notification case of `Flow.run`
(flow.go lines 160–172): repeatedly call `TryDequeue`, handing every
dequeued node to `loader.EvaluateDependencies`, and stop only when
`TryDequeue` returns nil.  Returns the queue as the loop leaves it and
the list of nodes `EvaluateDependencies` was invoked on, in call
order. -/
def drainQueue (q : Queue) : Queue × List QNode :=
  match h : q.tryDequeue with
  | none => (q, [])
  | some p =>
      let r := drainQueue p.2
      (r.1, p.1 :: r.2)
termination_by q.items.length
decreasing_by
  cases q with
  | mk items =>
      cases items with
      | nil => simp [Queue.tryDequeue] at h
      | cons x xs =>
          simp only [Queue.tryDequeue] at h
          cases h
          simp

/-! ## The `OnExportsChange` callback

`newFlow` (flow.go lines 119–132) installs
`OnExportsChange: func(cn) { queue.Enqueue(cn) }` into the component
globals.  To state that the callback does nothing but enqueue, the
observable controller activity is made explicit: the log of
`EvaluateDependencies` calls and a counter of calls into component
code. -/

/-- Controller activity observable from the component globals: the
update queue, the nodes `EvaluateDependencies` has been invoked on, and
how many times component code has been called. -/
structure ControllerState where
  queue : Queue
  evalLog : List QNode
  componentCalls : Nat
deriving DecidableEq, Repr

/-- The `OnExportsChange` callback from `newFlow`: enqueue the changed
component node on the update queue, and nothing else. -/
def onExportsChange (s : ControllerState) (cn : QNode) : ControllerState :=
  { s with queue := s.queue.enqueue cn }

/-! ## Shutdown: `Flow.run` exit and `Flow.Close`

`Flow.run` (flow.go lines 148–188) runs until its context is done and
`defer close(c.exited)` closes the `exited` channel on exit.
`Flow.Close` (lines 237–241) calls `c.cancel()`, receives from
`c.exited`, and only then calls `c.sched.Close()`, returning its
error.  The interleaving of the run goroutine and the `Close` caller is
modelled as a small-step relation; `schedErr` is the aggregate error
`Scheduler.Close` (not in the sources) would return. -/

/-- Progress of the `Close` caller: not yet called, cancelled and
blocked receiving on `exited`, or returned. -/
inductive ClosePhase where
  | idle
  | waitingExit
  | done
deriving DecidableEq, Repr

/-- The joint state of the run goroutine and the `Close` caller. -/
structure SysState where
  loopRunning : Bool
  ctxCancelled : Bool
  exitedClosed : Bool
  closePhase : ClosePhase
  schedClosed : Bool
  closeRet : Option (Option String)
deriving DecidableEq, Repr

/-- The state right after `New`: the event loop is running, nothing is
cancelled, `Close` has not been called. -/
def startState : SysState :=
  { loopRunning := true
    ctxCancelled := false
    exitedClosed := false
    closePhase := ClosePhase.idle
    schedClosed := false
    closeRet := none }

/-- One interleaved step of the run goroutine or the `Close` caller.
`loopExit`: with its context cancelled, the `select` in `run` takes the
`ctx.Done()` case, returns, and the deferred `close(c.exited)` fires.
`closeCancel`: `Close` calls `c.cancel()` and blocks on `<-c.exited`.
`closeFinish`: the receive on the closed `exited` channel completes and
`Close` calls `c.sched.Close()`, returning its error. -/
inductive Step (schedErr : Option String) : SysState → SysState → Prop where
  | loopExit (s : SysState) (h1 : s.loopRunning = true)
      (h2 : s.ctxCancelled = true) :
      Step schedErr s { s with loopRunning := false, exitedClosed := true }
  | closeCancel (s : SysState) (h : s.closePhase = ClosePhase.idle) :
      Step schedErr s
        { s with ctxCancelled := true, closePhase := ClosePhase.waitingExit }
  | closeFinish (s : SysState) (h1 : s.closePhase = ClosePhase.waitingExit)
      (h2 : s.exitedClosed = true) :
      Step schedErr s
        { s with schedClosed := true, closePhase := ClosePhase.done
                 closeRet := some schedErr }

/-- All states the system can reach from `startState`. -/
def Reaches (schedErr : Option String) (s : SysState) : Prop :=
  Relation.ReflTransGen (Step schedErr) startState s

/-- Inductive invariant of the shutdown protocol: the `exited` channel
is closed only once the loop has stopped, `Scheduler.Close` runs only
after `exited` is closed, and a returned `Close` carries the
scheduler's error. -/
def ShutdownInv (schedErr : Option String) (s : SysState) : Prop :=
  (s.exitedClosed = true → s.loopRunning = false)
  ∧ (s.schedClosed = true → s.exitedClosed = true)
  ∧ (s.closePhase = ClosePhase.done →
      s.closeRet = some schedErr ∧ s.schedClosed = true)

/-! ## `ComponentInfos` and `newFromNode`

`Flow.ComponentInfos` (flow.go lines 222–234) maps `newFromNode` over
`loader.Components()` with the edges of `loader.OriginalGraph()`.
`newFromNode` (lines 243–268) builds a `ComponentInfo` from a node and
the edge list.  `controller.ComponentNode` is not in the sources; the
fields `newFromNode` reads (`NodeID`, `ComponentName`, `Label`,
`CurrentHealth`) and the stored arguments and exports the spec says a
node carries are modelled as plain fields. -/

/-- Health of a component: state string, message, update time. -/
structure Health where
  state : String
  message : String
  updateTime : Nat
deriving DecidableEq, Repr

/-- Modelled from the spec: the parts of `controller.ComponentNode`
(not in the sources) that `ComponentInfos` reporting concerns: its
identifiers, current health, and current arguments and exports
(opaque values, `none` when absent). -/
structure ComponentNode where
  nodeID : String
  componentName : String
  label : String
  health : Health
  arguments : Option String
  exports : Option String
deriving DecidableEq, Repr

/-- One edge of the DAG built by the loader (`dag.Edge`): `fromId`
textually references `toId`. -/
structure Edge where
  fromId : String
  toId : String
deriving DecidableEq, Repr

/-- `flow.ComponentInfo` (flow.go lines 270–283), with the nested
`ComponentHealth` flattened and `json.RawMessage` fields as
`Option String` (`none` for the zero value, omitted from JSON). -/
structure ComponentInfo where
  name : String
  type : String
  id : String
  label : String
  references : List String
  referencedBy : List String
  healthState : String
  healthMessage : String
  healthUpdatedTime : Nat
  original : String
  arguments : Option String
  exports : Option String
  debugInfo : Option String
deriving DecidableEq, Repr

/-- The edge scan of `newFromNode` (flow.go lines 244–252): for each
edge, when its `From` is the node it appends the edge's `To` to
`references`; otherwise, when its `To` is the node, it appends the
edge's `From` to `referencedBy`. -/
def collectRefs (cnID : String) : List Edge → List String × List String
  | [] => ([], [])
  | e :: es =>
      let r := collectRefs cnID es
      if e.fromId = cnID then (e.toId :: r.1, r.2)
      else if e.toId = cnID then (r.1, e.fromId :: r.2)
      else r

/-- `newFromNode` (flow.go lines 243–268): builds the info record from
the node and the edge list.  Only `Label`, `ID`, `Name`, `Type`,
`References`, `ReferencedBy` and `Health` are set; `Original`,
`Arguments`, `Exports` and `DebugInfo` keep their zero values. -/
def newFromNode (cn : ComponentNode) (edges : List Edge) : ComponentInfo :=
  let r := collectRefs cn.nodeID edges
  { name := cn.componentName
    type := "block"
    id := cn.nodeID
    label := cn.label
    references := r.1
    referencedBy := r.2
    healthState := cn.health.state
    healthMessage := cn.health.message
    healthUpdatedTime := cn.health.updateTime
    original := ""
    arguments := none
    exports := none
    debugInfo := none }

/-- `Flow.ComponentInfos` (flow.go lines 222–234): one info per loaded
component, each built by `newFromNode` against the original graph's
edges. -/
def componentInfos (components : List ComponentNode) (edges : List Edge) :
    List ComponentInfo :=
  components.map (fun cn => newFromNode cn edges)

/-! ## `newFlow` and the logger

`newFlow` (flow.go lines 107–117) replaces a nil `Options.Logger` with
a logger created over `io.Discard`.  The `logging` package is not in
the sources; a logger is modelled by its sink. -/

/-- Where a logger writes. -/
inductive LogSink where
  | discard
  | writer (id : Nat)
deriving DecidableEq, Repr

/-- Modelled from the spec: a `logging.Logger` (not in the sources),
identified by its sink.  A logger over `LogSink.discard` is the no-op
logger. -/
structure Logger where
  sink : LogSink
deriving DecidableEq, Repr

/-- `flow.Options` (flow.go lines 64–80); `logger = none` is a nil
`Logger` field. -/
structure FlowOptions where
  logger : Option Logger
  dataPath : String
  httpListenAddr : String
deriving DecidableEq, Repr

/-- The logger selection of `newFlow` (flow.go lines 109–117): keep the
caller's logger, or construct one over `io.Discard` when it is nil
(`logging.New(io.Discard, DefaultOptions)`, which only fails on an
internal bug). -/
def newFlowLog (o : FlowOptions) : Logger :=
  match o.logger with
  | some l => l
  | none => { sink := LogSink.discard }

/-! ## Concrete values used by witnesses and counterexamples -/

/-- An error-severity diagnostic. -/
def errDiag : Diagnostic :=
  { severity := Severity.error, message := "component does not exist" }

/-- A warning-severity diagnostic. -/
def warnDiag : Diagnostic :=
  { severity := Severity.warn, message := "field is deprecated" }

/-- A fresh controller state (nothing loaded, channel empty) over a
unit loader state. -/
def freshState : FlowState Unit :=
  { loader := (), loadedOnce := false, loadFinishedCount := 0 }

/-- A controller state that has accepted a load already. -/
def loadedState : FlowState Unit :=
  { loader := (), loadedOnce := true, loadFinishedCount := 0 }

/-- A component node that currently holds arguments and exports. -/
def cnWithState : ComponentNode :=
  { nodeID := "local.file.secret"
    componentName := "local.file"
    label := "secret"
    health := { state := "healthy", message := "", updateTime := 7 }
    arguments := some "args-value"
    exports := some "exports-value" }

/-- A component node named `c` with no stored arguments or exports. -/
def cnPlain : ComponentNode :=
  { nodeID := "c"
    componentName := "local.file"
    label := "c"
    health := { state := "unknown", message := "", updateTime := 0 }
    arguments := none
    exports := none }

/-- A two-edge graph `a → c → b` around `cnPlain`. -/
def edgesAC : List Edge :=
  [{ fromId := "a", toId := "c" }, { fromId := "c", toId := "b" }]

/-! ## Theorems -/

/-- Helper: how `LoadFile` behaves on the no-logger-error path once a
load has been accepted (`loadedOnce = true`): the first-load guard is
skipped. -/
theorem LoadFile_loaded_once_accepts {L : Type} (applyFn : L → L × Diagnostics)
    (s : FlowState L) (h : s.loadedOnce = true) :
    LoadFile applyFn none s =
      { state :=
          { loader := (applyFn s.loader).1
            loadedOnce := true
            loadFinishedCount := chanSendNB 1 s.loadFinishedCount }
        ret := (Diagnostics.errorOrNil (applyFn s.loader).2).map LoadError.diags
        applyRan := true
        signalSent := s.loadFinishedCount == 0 } := by
  simp [LoadFile, h]

/-- C1: before any load has been accepted, a `LoadFile` whose `Apply`
diagnostics contain errors returns those diagnostics, leaves the
load-finished channel untouched (so the event loop never schedules or
starts components for it) and keeps `loadedOnce` unset; `loadedOnce` is
sticky under every later `LoadFile`; and once `loadedOnce` is set,
every `LoadFile` (even one with error diagnostics) posts the
load-finished signal and returns `diags.ErrorOrNil()` to the caller. -/
theorem LoadFile_first_load_gating {L : Type} (applyFn : L → L × Diagnostics)
    (s : FlowState L) :
    (s.loadedOnce = false → (applyFn s.loader).2.hasErrors = true →
      (LoadFile applyFn none s).ret
          = some (LoadError.diags (applyFn s.loader).2)
        ∧ (LoadFile applyFn none s).signalSent = false
        ∧ (LoadFile applyFn none s).state.loadFinishedCount
            = s.loadFinishedCount
        ∧ (LoadFile applyFn none s).state.loadedOnce = false)
    ∧ (∀ logErr : Option String, s.loadedOnce = true →
        (LoadFile applyFn logErr s).state.loadedOnce = true)
    ∧ (s.loadedOnce = true → s.loadFinishedCount ≤ 1 →
        (LoadFile applyFn none s).state.loadFinishedCount = 1
          ∧ (LoadFile applyFn none s).ret
              = (Diagnostics.errorOrNil (applyFn s.loader).2).map
                  LoadError.diags) := by
  refine ⟨?_, ?_, ?_⟩
  · intro h1 h2
    simp [LoadFile, h1, h2]
  · intro logErr h1
    cases logErr with
    | none => simp [LoadFile, h1]
    | some e => simpa [LoadFile] using h1
  · intro h1 hc
    rw [LoadFile_loaded_once_accepts applyFn s h1]
    refine ⟨?_, rfl⟩
    simp only [chanSendNB]
    split <;> omega

/-- C1 witness: concrete first-load rejection and concrete later-load
acceptance. -/
theorem LoadFile_first_load_gating_witness :
    ((LoadFile (fun l : Unit => (l, [errDiag])) none freshState).signalSent
        = false
      ∧ (LoadFile (fun l : Unit => (l, [errDiag])) none
          freshState).state.loadedOnce = false)
    ∧ (LoadFile (fun l : Unit => (l, [errDiag])) none
        loadedState).state.loadedOnce = true
    ∧ (LoadFile (fun l : Unit => (l, [errDiag])) none
        loadedState).state.loadFinishedCount = 1 := by
  have h1 := LoadFile_first_load_gating (fun l : Unit => (l, [errDiag]))
    freshState
  have h2 := LoadFile_first_load_gating (fun l : Unit => (l, [errDiag]))
    loadedState
  refine ⟨⟨(h1.1 rfl (by decide)).2.1, (h1.1 rfl (by decide)).2.2.2⟩,
    h2.2.1 none rfl, (h2.2.2 rfl (by decide)).1⟩

/-- C2 counterexample: on the first-ever load, `Apply` produces a
(warning-severity) diagnostic, yet the load is accepted — `loadedOnce`
becomes set and the load-finished signal is sent — contradicting "the
first load rejects on any diagnostic, of any severity".  The guard in
`LoadFile` is `diags.HasErrors()`, which looks only at error
severity. -/
theorem LoadFile_first_load_warning_accepted :
    (LoadFile (fun l : Unit => (l, [warnDiag])) none freshState).state.loadedOnce
        = true
      ∧ (LoadFile (fun l : Unit => (l, [warnDiag])) none
          freshState).signalSent = true
      ∧ [warnDiag] ≠ ([] : Diagnostics) := by
  refine ⟨rfl, rfl, by decide⟩

/-- C2 amended: on the first-ever load, `LoadFile` rejects exactly when
`Apply`'s diagnostics contain an error-severity diagnostic; a first
load whose diagnostics are all of lower severity is accepted (with its
diagnostics still returned via `ErrorOrNil`). -/
theorem LoadFile_first_load_rejects_iff_errors {L : Type}
    (applyFn : L → L × Diagnostics) (s : FlowState L)
    (h : s.loadedOnce = false) :
    ((applyFn s.loader).2.hasErrors = true →
      (LoadFile applyFn none s).state.loadedOnce = false
        ∧ (LoadFile applyFn none s).signalSent = false
        ∧ (LoadFile applyFn none s).ret
            = some (LoadError.diags (applyFn s.loader).2))
    ∧ ((applyFn s.loader).2.hasErrors = false →
      (LoadFile applyFn none s).state.loadedOnce = true
        ∧ (LoadFile applyFn none s).state.loadFinishedCount
            = chanSendNB 1 s.loadFinishedCount
        ∧ (LoadFile applyFn none s).ret
            = (Diagnostics.errorOrNil (applyFn s.loader).2).map
                LoadError.diags) := by
  constructor
  · intro he
    simp [LoadFile, h, he]
  · intro he
    simp [LoadFile, h, he]

/-- C2 amended witness: a first load with one error diagnostic is
rejected; a first load with one warning diagnostic is accepted. -/
theorem LoadFile_first_load_rejects_iff_errors_witness :
    ((LoadFile (fun l : Unit => (l, [errDiag])) none
        freshState).state.loadedOnce = false)
    ∧ ((LoadFile (fun l : Unit => (l, [warnDiag])) none
        freshState).state.loadedOnce = true) := by
  have h1 := LoadFile_first_load_rejects_iff_errors
    (fun l : Unit => (l, [errDiag])) freshState rfl
  have h2 := LoadFile_first_load_rejects_iff_errors
    (fun l : Unit => (l, [warnDiag])) freshState rfl
  exact ⟨(h1.1 (by decide)).1, (h2.2 (by decide)).1⟩

/-- C6: the load-finished send never blocks (it is the total function
`chanSendNB` over the capacity-one channel): starting from at most one
pending notification, `LoadFile` leaves at most one pending, and when a
notification is already pending the duplicate is dropped — nothing is
sent and the occupancy stays one. -/
theorem LoadFile_loadFinished_nonblocking {L : Type}
    (applyFn : L → L × Diagnostics) (logErr : Option String)
    (s : FlowState L) (h : s.loadFinishedCount ≤ 1) :
    (LoadFile applyFn logErr s).state.loadFinishedCount ≤ 1
    ∧ (s.loadFinishedCount = 1 →
        (LoadFile applyFn logErr s).signalSent = false
          ∧ (LoadFile applyFn logErr s).state.loadFinishedCount = 1) := by
  cases logErr with
  | some e =>
      refine ⟨by simpa [LoadFile] using h, ?_⟩
      intro h1
      simp [LoadFile, h1]
  | none =>
      by_cases hl : (!s.loadedOnce && (applyFn s.loader).2.hasErrors) = true
      · refine ⟨by simpa [LoadFile, hl] using h, ?_⟩
        intro h1
        simp [LoadFile, hl, h1]
      · rw [Bool.not_eq_true] at hl
        constructor
        · simp only [LoadFile, hl, Bool.false_eq_true, if_false, chanSendNB]
          split <;> omega
        · intro h1
          simp [LoadFile, hl, h1, chanSendNB]

/-- C6 witness: with a notification already pending, a later load sends
nothing and occupancy stays one. -/
theorem LoadFile_loadFinished_nonblocking_witness :
    (LoadFile (fun l : Unit => (l, [])) none
        { loader := (), loadedOnce := true, loadFinishedCount := 1 }).signalSent
      = false
    ∧ (LoadFile (fun l : Unit => (l, [])) none
        { loader := (), loadedOnce := true,
          loadFinishedCount := 1 }).state.loadFinishedCount = 1 := by
  exact (LoadFile_loadFinished_nonblocking (fun l : Unit => (l, [])) none
    { loader := (), loadedOnce := true, loadFinishedCount := 1 }
    (by decide)).2 rfl

/-- C9: when the logger reconfiguration from the file's logging block
fails, `LoadFile` returns the wrapped error before `Apply` runs: the
loader state (graph), the `loadedOnce` flag and the load-finished
channel are all unchanged, and no signal is sent. -/
theorem LoadFile_logger_error_path {L : Type} (applyFn : L → L × Diagnostics)
    (msg : String) (s : FlowState L) :
    (LoadFile applyFn (some msg) s).applyRan = false
    ∧ (LoadFile applyFn (some msg) s).state.loader = s.loader
    ∧ (LoadFile applyFn (some msg) s).state.loadedOnce = s.loadedOnce
    ∧ (LoadFile applyFn (some msg) s).state.loadFinishedCount
        = s.loadFinishedCount
    ∧ (LoadFile applyFn (some msg) s).signalSent = false
    ∧ (LoadFile applyFn (some msg) s).ret
        = some (LoadError.logUpdate ("error updating logger: " ++ msg)) :=
  ⟨rfl, rfl, rfl, rfl, rfl, rfl⟩

/-- Helper: `drainQueue` on an empty queue. -/
theorem drainQueue_empty : drainQueue { items := [] } = ({ items := [] }, []) := by
  rw [drainQueue]
  rfl

/-- Helper: `drainQueue` dequeues the head and recurses on the rest. -/
theorem drainQueue_cons (x : QNode) (xs : List QNode) :
    drainQueue { items := x :: xs }
      = ((drainQueue { items := xs }).1, x :: (drainQueue { items := xs }).2) := by
  rw [drainQueue]
  rfl

/-- Helper: the drain empties the queue and the evaluation log is
exactly the queued items, in order. -/
theorem drainQueue_spec (q : Queue) :
    (drainQueue q).1 = { items := [] } ∧ (drainQueue q).2 = q.items := by
  cases q with
  | mk items =>
      induction items with
      | nil => simp [drainQueue_empty]
      | cons x xs ih => simp [drainQueue_cons, ih]

/-- C3: on a queue notification, the event loop's drain calls
`EvaluateDependencies` on every dequeued node (the evaluation log
equals the queue contents, in dequeue order, so no node is skipped) and
goes back to waiting only when `TryDequeue` returns nil (the final
queue is empty, so one more `TryDequeue` yields nil). -/
theorem run_drains_queue_fully (q : Queue) :
    (drainQueue q).1.tryDequeue = none ∧ (drainQueue q).2 = q.items := by
  have h := drainQueue_spec q
  refine ⟨?_, h.2⟩
  rw [h.1]
  rfl

/-- C4: the `OnExportsChange` callback installed by `newFlow` only
enqueues the changed node: the queue becomes `queue.Enqueue(cn)`, the
`EvaluateDependencies` log and the count of calls into component code
are untouched (no evaluation, no re-entry), and the node sits in the
queue so the next drain of the event loop evaluates it — a future tick
rather than re-entry. -/
theorem onExportsChange_only_enqueues (s : ControllerState) (cn : QNode) :
    (onExportsChange s cn).queue = s.queue.enqueue cn
    ∧ (onExportsChange s cn).evalLog = s.evalLog
    ∧ (onExportsChange s cn).componentCalls = s.componentCalls
    ∧ cn ∈ (drainQueue (onExportsChange s cn).queue).2 := by
  refine ⟨rfl, rfl, rfl, ?_⟩
  rw [(drainQueue_spec (onExportsChange s cn).queue).2]
  show cn ∈ (s.queue.enqueue cn).items
  rw [Queue.enqueue]
  split
  · assumption
  · simp

/-- Helper: the shutdown invariant holds in every reachable state. -/
theorem shutdownInv_reachable (schedErr : Option String) (s : SysState)
    (h : Reaches schedErr s) : ShutdownInv schedErr s := by
  induction h with
  | refl => exact ⟨by simp [startState], by simp [startState], by simp [startState]⟩
  | tail hab hbc ih =>
      obtain ⟨i1, i2, i3⟩ := ih
      cases hbc with
      | loopExit h1 h2 => exact ⟨fun _ => rfl, fun _ => rfl, i3⟩
      | closeCancel h1 =>
          refine ⟨i1, i2, ?_⟩
          intro hd
          simp only at hd
          cases hd
      | closeFinish h1 h2 =>
          exact ⟨i1, fun _ => h2, fun _ => ⟨rfl, rfl⟩⟩

/-- C5: in every state the system can reach, if `Scheduler.Close` has
run then the event loop has already fully exited (the loop is stopped
and `exited` is closed) — `Close` cancels, waits for the loop, and only
then closes the scheduler — and a completed `Close` returned exactly
the scheduler's aggregate close error. -/
theorem Close_waits_for_loop_exit (schedErr : Option String) (s : SysState)
    (h : Reaches schedErr s) :
    (s.schedClosed = true → s.loopRunning = false ∧ s.exitedClosed = true)
    ∧ (s.closePhase = ClosePhase.done → s.closeRet = some schedErr) := by
  obtain ⟨i1, i2, i3⟩ := shutdownInv_reachable schedErr s h
  exact ⟨fun hs => ⟨i1 (i2 hs), i2 hs⟩, fun hd => (i3 hd).1⟩

/-- C5 witness: a concrete complete shutdown run (cancel, loop exit,
scheduler close) reaching the final state, at which the theorem yields
that the loop had exited and `Close` returned the scheduler error. -/
theorem Close_waits_for_loop_exit_witness :
    ({ loopRunning := false, ctxCancelled := true, exitedClosed := true
       closePhase := ClosePhase.done, schedClosed := true
       closeRet := some (some "close failed") } : SysState).loopRunning = false
    ∧ ({ loopRunning := false, ctxCancelled := true, exitedClosed := true
         closePhase := ClosePhase.done, schedClosed := true
         closeRet := some (some "close failed") } : SysState).closeRet
        = some (some "close failed") := by
  have hr : Reaches (some "close failed")
      { loopRunning := false, ctxCancelled := true, exitedClosed := true
        closePhase := ClosePhase.done, schedClosed := true
        closeRet := some (some "close failed") } := by
    refine Relation.ReflTransGen.tail
      (Relation.ReflTransGen.tail
        (Relation.ReflTransGen.tail Relation.ReflTransGen.refl
          (Step.closeCancel startState rfl))
        (Step.loopExit _ rfl rfl))
      (Step.closeFinish _ rfl rfl)
  have h := Close_waits_for_loop_exit (some "close failed") _ hr
  exact ⟨(h.1 rfl).1, h.2 rfl⟩

/-- Helper: membership in the `references` list built by the edge scan
of `newFromNode`: exactly the targets of edges leaving the node. -/
theorem collectRefs_fst_mem (cnID b : String) (edges : List Edge) :
    b ∈ (collectRefs cnID edges).1
      ↔ ({ fromId := cnID, toId := b } : Edge) ∈ edges := by
  induction edges with
  | nil => simp [collectRefs]
  | cons e es ih =>
      cases e with
      | mk f t =>
          by_cases h1 : f = cnID
          · subst h1
            simp [collectRefs, ih, Edge.mk.injEq, eq_comm]
          · have h1s : ¬cnID = f := fun hh => h1 hh.symm
            by_cases h2 : t = cnID
            · subst h2
              simp [collectRefs, h1, h1s, ih, Edge.mk.injEq]
            · simp [collectRefs, h1, h1s, h2, ih, Edge.mk.injEq]

/-- Helper: membership in the `referencedBy` list built by the edge
scan of `newFromNode`: exactly the sources of edges into the node,
provided the edge list has no self-edge at the node (the `else if` in
the scan would otherwise claim a self-edge for `references` only). -/
theorem collectRefs_snd_mem (cnID a : String) (edges : List Edge)
    (hself : ({ fromId := cnID, toId := cnID } : Edge) ∉ edges) :
    a ∈ (collectRefs cnID edges).2
      ↔ ({ fromId := a, toId := cnID } : Edge) ∈ edges := by
  induction edges with
  | nil => simp [collectRefs]
  | cons e es ih =>
      have hself1 : ({ fromId := cnID, toId := cnID } : Edge) ≠ e :=
        fun hh => hself (hh ▸ List.mem_cons_self e es)
      have hself2 : ({ fromId := cnID, toId := cnID } : Edge) ∉ es :=
        fun hh => hself (List.mem_cons_of_mem e hh)
      have ih2 := ih hself2
      cases e with
      | mk f t =>
          by_cases h1 : f = cnID
          · subst h1
            have ht : ¬f = t := by
              intro hh
              exact hself1 (by rw [← hh])
            simp [collectRefs, ih2, Edge.mk.injEq, ht]
          · by_cases h2 : t = cnID
            · subst h2
              simp [collectRefs, h1, ih2, Edge.mk.injEq, eq_comm]
            · have h2s : ¬cnID = t := fun hh => h2 hh.symm
              simp [collectRefs, h1, h2, h2s, ih2, Edge.mk.injEq]

/-- C8: in the info `newFromNode` builds, `References` holds exactly
the `NodeID`s `b` with an edge `C → B` in the graph's edge list, and
`ReferencedBy` exactly the `NodeID`s `a` with an edge `A → C`, for any
edge list without a self-edge at `C` (the loader's graph is acyclic, so
it has none). -/
theorem newFromNode_edges_exact (cn : ComponentNode) (edges : List Edge)
    (a b : String)
    (hself : ({ fromId := cn.nodeID, toId := cn.nodeID } : Edge) ∉ edges) :
    (b ∈ (newFromNode cn edges).references
      ↔ ({ fromId := cn.nodeID, toId := b } : Edge) ∈ edges)
    ∧ (a ∈ (newFromNode cn edges).referencedBy
      ↔ ({ fromId := a, toId := cn.nodeID } : Edge) ∈ edges) :=
  ⟨collectRefs_fst_mem cn.nodeID b edges,
   collectRefs_snd_mem cn.nodeID a edges hself⟩

/-- C8 witness: for the node `c` with edges `a → c` and `c → b`, the
theorem yields that `b` is listed under `References` and `a` under
`ReferencedBy`. -/
theorem newFromNode_edges_exact_witness :
    "b" ∈ (newFromNode cnPlain edgesAC).references
    ∧ "a" ∈ (newFromNode cnPlain edgesAC).referencedBy := by
  have h := newFromNode_edges_exact cnPlain edgesAC "a" "b" (by decide)
  exact ⟨h.1.mpr (by decide), h.2.mpr (by decide)⟩

/-- C7 counterexample: for a component that currently holds arguments
and exports, the info record `ComponentInfos` builds for it does not
carry them — `newFromNode` leaves `Arguments` and `Exports` at their
zero values, so the record's arguments and exports are not the
component's. -/
theorem componentInfos_drop_arguments_exports :
    componentInfos [cnWithState] [] = [newFromNode cnWithState []]
    ∧ cnWithState.arguments = some "args-value"
    ∧ (newFromNode cnWithState []).arguments ≠ cnWithState.arguments
    ∧ cnWithState.exports = some "exports-value"
    ∧ (newFromNode cnWithState []).exports ≠ cnWithState.exports := by
  refine ⟨rfl, rfl, ?_, rfl, ?_⟩ <;> decide

/-- C7 amended: for every component currently loaded, `ComponentInfos`
returns an info record (built by `newFromNode`) carrying the
component's id, type, label, references, referencedBy and health; its
arguments and exports fields are left unset (`newFromNode` never copies
them from the node). -/
theorem componentInfos_fields (components : List ComponentNode)
    (edges : List Edge) (cn : ComponentNode) (h : cn ∈ components) :
    newFromNode cn edges ∈ componentInfos components edges
    ∧ (newFromNode cn edges).id = cn.nodeID
    ∧ (newFromNode cn edges).name = cn.componentName
    ∧ (newFromNode cn edges).type = "block"
    ∧ (newFromNode cn edges).label = cn.label
    ∧ (newFromNode cn edges).references = (collectRefs cn.nodeID edges).1
    ∧ (newFromNode cn edges).referencedBy = (collectRefs cn.nodeID edges).2
    ∧ (newFromNode cn edges).healthState = cn.health.state
    ∧ (newFromNode cn edges).healthMessage = cn.health.message
    ∧ (newFromNode cn edges).healthUpdatedTime = cn.health.updateTime
    ∧ (newFromNode cn edges).arguments = none
    ∧ (newFromNode cn edges).exports = none :=
  ⟨List.mem_map_of_mem (fun c => newFromNode c edges) h,
   rfl, rfl, rfl, rfl, rfl, rfl, rfl, rfl, rfl, rfl, rfl⟩

/-- C7 amended witness: the info built for the concrete node `c` in a
one-component load. -/
theorem componentInfos_fields_witness :
    newFromNode cnPlain edgesAC ∈ componentInfos [cnPlain] edgesAC
    ∧ (newFromNode cnPlain edgesAC).id = cnPlain.nodeID := by
  have h := componentInfos_fields [cnPlain] edgesAC cnPlain
    (List.mem_singleton.mpr rfl)
  exact ⟨h.1, h.2.1⟩

/-- C10: `newFlow` never leaves the controller without a logger: a nil
`Options.Logger` is replaced by the no-op logger over `io.Discard`
(`logging.New(io.Discard, DefaultOptions)`), and a non-nil logger is
kept as given — so every controller operation holds a concrete logger
and none dereferences nil. -/
theorem newFlowLog_never_nil (o : FlowOptions) :
    (o.logger = none → newFlowLog o = { sink := LogSink.discard })
    ∧ (∀ l : Logger, o.logger = some l → newFlowLog o = l) := by
  constructor
  · intro h
    simp [newFlowLog, h]
  · intro l h
    simp [newFlowLog, h]

/-- C10 witness: concrete options with a nil logger yield the discard
logger; concrete options with a logger keep it. -/
theorem newFlowLog_never_nil_witness :
    newFlowLog { logger := none, dataPath := "data", httpListenAddr := "a" }
        = { sink := LogSink.discard }
    ∧ newFlowLog { logger := some { sink := LogSink.writer 3 }
                   dataPath := "data", httpListenAddr := "a" }
        = { sink := LogSink.writer 3 } := by
  refine ⟨(newFlowLog_never_nil _).1 rfl, (newFlowLog_never_nil _).2 _ rfl⟩

end Flow
